import Mathlib

/-!
Shallow embedding of the NLP-based CV parser (src/index.js).

The repository is a single AWS-Lambda-style handler that decodes a résumé
(PDF or DOCX) to text and runs nine field extractors over the text.  The
extractors are regex based; we embed each regular expression of the source
as an executable leftmost-match function on `List Char` that follows the
JavaScript regex engine's backtracking order for that particular pattern
(positions are in UTF-16 code units; every character involved is in the
BMP, so code-unit positions and `Char` positions coincide).

External collaborators (pdf-parse, docx-parser, the `compromise` NLP
toolkit, the iso-31661 and languages.json datasets, base64 decoding) are
modelled as injected capabilities, exactly at the interface the source
uses them.  The two pieces of genuine mutable state of the source — the
filesystem (the DOCX temp file) and `salaryRegex.lastIndex` (the salary
regex carries the `g` flag and is used with `exec`) — are threaded
explicitly through a `World` record.
-/

/-- JavaScript word character class `\w` = `[A-Za-z0-9_]`. -/
def isWordChar (c : Char) : Bool := c.isAlpha || c.isDigit || c = '_'

/-- Core of the JavaScript whitespace class `\s` (space, tab, newline,
carriage return, form feed, vertical tab). -/
def isSpaceJS (c : Char) : Bool :=
  c = ' ' || c = '\t' || c = '\n' || c = '\r' || c = '\x0c' || c = '\x0b'

/-- Length of the run of characters satisfying `p` starting at index `i`. -/
def runFrom (p : Char → Bool) (s : List Char) (i : Nat) : Nat :=
  ((s.drop i).takeWhile p).length

/-- Character at index `i` is a digit (false when out of range). -/
def digitAt (s : List Char) (i : Nat) : Bool :=
  ((s[i]?).map Char.isDigit).getD false

/-- Case-insensitive literal prefix match, the way a regex literal with the
`i` flag matches (ASCII case folding). -/
def litCI : List Char → List Char → Bool
  | [], _ => true
  | _ :: _, [] => false
  | p :: ps, c :: cs => (p.toLower = c.toLower) && litCI ps cs

/-- First `some` in a list of attempts, in order — the backtracking
preference order of an alternation. -/
def firstSome : List (Option Nat) → Option Nat
  | [] => none
  | some n :: _ => some n
  | none :: rest => firstSome rest

/-- JavaScript `split(sep)` for a one-character separator: keeps empty
pieces, and splitting the empty string gives one empty piece. -/
def splitOnChar (sep : Char) : List Char → List (List Char)
  | [] => [[]]
  | c :: rest =>
    if c = sep then [] :: splitOnChar sep rest
    else
      match splitOnChar sep rest with
      | [] => [[c]]
      | g :: gs => (c :: g) :: gs

/-- JavaScript `trim()`: strip whitespace from both ends. -/
def trimJS (cs : List Char) : List Char :=
  ((cs.dropWhile isSpaceJS).reverse.dropWhile isSpaceJS).reverse

/-- Leftmost-match scan: try the pattern at index 0, then 1, … and return
the matched substring of the first position where it succeeds.  This is
what `String.prototype.match` returns in element 0. -/
def firstMatchSimple (tryAt : List Char → Option Nat) : List Char → Option (List Char)
  | [] => (tryAt []).map (fun n => List.take n [])
  | c :: rest =>
    match tryAt (c :: rest) with
    | some n => some (List.take n (c :: rest))
    | none => firstMatchSimple tryAt rest

/-- Leftmost-match scan that also feeds the previous character to the
pattern (needed for a lookbehind such as the telegram handle's). -/
def firstMatchPrev (tryAt : Option Char → List Char → Option Nat) :
    Option Char → List Char → Option (List Char)
  | prev, [] => (tryAt prev []).map (fun n => List.take n [])
  | prev, c :: rest =>
    match tryAt prev (c :: rest) with
    | some n => some (List.take n (c :: rest))
    | none => firstMatchPrev tryAt (some c) rest

/-! ### Email: `[a-zA-Z._%+-][a-zA-Z0-9._%+-]*@[a-zA-Z0-9.-]+\.[a-zA-Z]{2,}` -/

/-- First character class of the email local part (no digits). -/
def emailLocal1 (c : Char) : Bool :=
  c.isAlpha || c = '.' || c = '_' || c = '%' || c = '+' || c = '-'

/-- Continuation class of the email local part. -/
def emailLocal2 (c : Char) : Bool := emailLocal1 c || c.isDigit

/-- Domain class `[a-zA-Z0-9.-]`. -/
def emailDomainChar (c : Char) : Bool := c.isAlpha || c.isDigit || c = '.' || c = '-'

/-- Backtracking over how many domain characters `[a-zA-Z0-9.-]+` consumes:
the greedy `+` first swallows the dots, then gives characters back until a
literal `.` followed by at least two letters fits.  `dstart` is the index
where the domain starts; the countdown argument is the number of characters
the `+` currently keeps. -/
def emailDomLoop (s : List Char) (dstart : Nat) : Nat → Option Nat
  | 0 => none
  | n + 1 =>
    if s[dstart + (n + 1)]? = some '.' ∧ runFrom Char.isAlpha s (dstart + n + 2) ≥ 2 then
      some (dstart + n + 2 + runFrom Char.isAlpha s (dstart + n + 2))
    else emailDomLoop s dstart n

/-- Email pattern attempt at the start of the suffix `s`; returns the match
length. -/
def emailTryAt (s : List Char) : Option Nat :=
  match s with
  | [] => none
  | c :: _ =>
    if emailLocal1 c then
      let L := runFrom emailLocal2 s 1
      if s[1 + L]? = some '@' then
        emailDomLoop s (2 + L) (runFrom emailDomainChar s (2 + L))
      else none
    else none

/-- extractEmail from src/index.js: first match of emailRegex, else null. -/
def extractEmail (text : String) : Option String :=
  (firstMatchSimple emailTryAt text.data).map List.asString

/-! ### Phone: `\+?\d{1,3}[0-9\-\(\) ]{10,20}` -/

/-- Phone body class `[0-9\-\(\) ]`. -/
def phoneChar (c : Char) : Bool :=
  c.isDigit || c = '-' || c = '(' || c = ')' || c = ' '

/-- Backtracking over how many digits `\d{1,3}` keeps (greedy, counts down
from 3); the tail `[0-9\-\(\) ]{10,20}` is greedy with no continuation, so
it takes `min run 20` and needs at least 10. -/
def phoneLoop (s : List Char) (off : Nat) : Nat → Option Nat
  | 0 => none
  | n + 1 =>
    let R := min (runFrom phoneChar s (off + n + 1)) 20
    if R ≥ 10 then some (off + n + 1 + R) else phoneLoop s off n

/-- Phone pattern attempt at the start of the suffix. -/
def phoneTryAt (s : List Char) : Option Nat :=
  let off : Nat := if s[0]? = some '+' then 1 else 0
  let D := runFrom Char.isDigit s off
  if D = 0 then none else phoneLoop s off (min 3 D)

/-- extractPhoneNumber from src/index.js. -/
def extractPhoneNumber (text : String) : Option String :=
  (firstMatchSimple phoneTryAt text.data).map List.asString

/-! ### Scheme prefix `(https?:\/\/)?` shared by the URL patterns -/

/-- Greedy `https?://`: try `https://` then `http://` (case-insensitive). -/
def schemeLen (s : List Char) : Option Nat :=
  if litCI "https://".data s then some 8
  else if litCI "http://".data s then some 7
  else none

/-! ### WhatsApp `(https?:\/\/)?(wa\.me|api\.whatsapp\.com)\/[^\s]+` and
Telegram URL `(https?:\/\/)?(t\.me|telegram\.me)\/[^\s]+` -/

/-- Try each host alternative in order; after the host a `/` and at least
one non-whitespace character (greedy) must follow. -/
def tryHosts (hosts : List (List Char)) (s : List Char) : Option Nat :=
  match hosts with
  | [] => none
  | h :: rest =>
    if litCI h s then
      if s[h.length]? = some '/' then
        let r := runFrom (fun c => !(isSpaceJS c)) s (h.length + 1)
        if r ≥ 1 then some (h.length + 1 + r) else tryHosts rest s
      else tryHosts rest s
    else tryHosts rest s

/-- Host-URL pattern attempt: optional scheme (with backtracking to the
schemeless reading when the host fails after the scheme). -/
def urlTryAt (hosts : List (List Char)) (s : List Char) : Option Nat :=
  match schemeLen s with
  | some k =>
    match tryHosts hosts (s.drop k) with
    | some n => some (k + n)
    | none => tryHosts hosts s
  | none => tryHosts hosts s

/-- extractWhatsApp from src/index.js. -/
def extractWhatsApp (text : String) : Option String :=
  (firstMatchSimple (urlTryAt ["wa.me".data, "api.whatsapp.com".data]) text.data).map List.asString

/-- First telegram URL match (`telegramUrlRegex`). -/
def telegramUrlFirst (text : String) : Option String :=
  (firstMatchSimple (urlTryAt ["t.me".data, "telegram.me".data]) text.data).map List.asString

/-! ### Telegram handle `(?<![\w.])@\w+(?!\.\w)` -/

/-- Handle pattern attempt: `@` not preceded by a word character or dot,
then a greedy run of word characters; if the run is followed by a dot and
a word character the greedy `\w+` gives one character back (after which
the lookahead necessarily succeeds), failing entirely only when the run
has a single character. -/
def handleTryAt (prev : Option Char) (s : List Char) : Option Nat :=
  let blockedBefore : Bool :=
    match prev with
    | some p => isWordChar p || p = '.'
    | none => false
  if s[0]? = some '@' ∧ blockedBefore = false then
    let r := runFrom isWordChar s 1
    if r ≥ 1 then
      if ¬ (s[1 + r]? = some '.' ∧ ((s[2 + r]?).map isWordChar).getD false) then
        some (1 + r)
      else if r ≥ 2 then some r
      else none
    else none
  else none

/-- First telegram handle match (`telegramHandleRegex`). -/
def telegramHandleFirst (text : String) : Option String :=
  (firstMatchPrev handleTryAt none text.data).map List.asString

/-- extractTelegram from src/index.js: two stages, URL first, then handle. -/
def extractTelegram (text : String) : Option String :=
  match telegramUrlFirst text with
  | some u => some u
  | none => telegramHandleFirst text

/-! ### LinkedIn `((https?:\/\/)?(www\.)?)?linkedin\.com\/(in\/)?[A-z0-9_-]+` -/

/-- LinkedIn handle class `[A-z0-9_-]` (note: `A-z` also covers the ASCII
range between `Z` and `a`). -/
def linkedInChar (c : Char) : Bool :=
  ('A' ≤ c && c ≤ 'z') || c.isDigit || c = '_' || c = '-'

/-- After `linkedin.com/`: greedy optional `in/` with fallback, then at
least one handle character. -/
def linkedTail (s : List Char) (q : Nat) : Option Nat :=
  if litCI "in/".data (s.drop q) ∧ runFrom linkedInChar s (q + 3) ≥ 1 then
    some (q + 3 + runFrom linkedInChar s (q + 3))
  else if runFrom linkedInChar s q ≥ 1 then
    some (q + runFrom linkedInChar s q)
  else none

/-- Require `linkedin.com/` at index `b`, then the tail. -/
def linkedCore (s : List Char) (b : Nat) : Option Nat :=
  if litCI "linkedin.com/".data (s.drop b) then linkedTail s (b + 13) else none

/-- LinkedIn pattern attempt: the optional prefixes in JavaScript
backtracking preference order (scheme+www, scheme, www, nothing). -/
def linkedInTryAt (s : List Char) : Option Nat :=
  let www0 : List Nat := if litCI "www.".data s then [4, 0] else [0]
  let combos : List Nat :=
    match schemeLen s with
    | some k => (if litCI "www.".data (s.drop k) then [k + 4, k] else [k]) ++ www0
    | none => www0
  firstSome (combos.map (linkedCore s))

/-- extractLinkedIn from src/index.js. -/
def extractLinkedIn (text : String) : Option String :=
  (firstMatchSimple linkedInTryAt text.data).map List.asString

/-! ### Salary
`(?<currencySymbol>[\$€£])\s?(?<amount>\d+(?:,?\d{3})*(?:\.\d{1,2})?)( {1,3})(?<currencySymbol2>[\$€£])?\s?\s?(?:per year|annually|per annum|per month)?`
with flags `gi`, used through `exec`, so `lastIndex` is real state. -/

/-- Currency symbol class `[\$€£]`. -/
def isCurrency (c : Char) : Bool := c = '$' || c = '€' || c = '£'

/-- End of the amount after the optional decimal part, in backtracking
order (`.dd`, `.d`, empty), each checked against the mandatory space that
follows the amount group.  `i` is the index where the decimal may start;
the returned index is the exclusive end of the amount. -/
def decCand (s : List Char) (i : Nat) : Option Nat :=
  if s[i]? = some '.' ∧ digitAt s (i + 1) ∧ digitAt s (i + 2) ∧ s[i + 3]? = some ' ' then
    some (i + 3)
  else if s[i]? = some '.' ∧ digitAt s (i + 1) ∧ s[i + 2]? = some ' ' then
    some (i + 2)
  else if s[i]? = some ' ' then some i
  else none

/-- Greedy star `(?:,?\d{3})*`: iterate as long as a `,ddd` or `ddd` step
fits (the two are mutually exclusive at any position), falling back to
stopping the star at each level when the continuation fails. -/
def starLoop (s : List Char) : Nat → Nat → Option Nat
  | 0, i => decCand s i
  | fuel + 1, i =>
    if s[i]? = some ',' ∧ digitAt s (i + 1) ∧ digitAt s (i + 2) ∧ digitAt s (i + 3) then
      match starLoop s fuel (i + 4) with
      | some e => some e
      | none => decCand s i
    else if digitAt s i ∧ digitAt s (i + 1) ∧ digitAt s (i + 2) then
      match starLoop s fuel (i + 3) with
      | some e => some e
      | none => decCand s i
    else decCand s i

/-- Greedy `\d+`: keep `k` digits, counting down from the full run. -/
def amtLoop (s : List Char) (ds : Nat) : Nat → Option Nat
  | 0 => none
  | n + 1 =>
    match starLoop s s.length (ds + n + 1) with
    | some e => some e
    | none => amtLoop s ds n

/-- Trailing period keyword `(?:per year|annually|per annum|per month)?`,
case-insensitive, consumed if it matches at `p`. -/
def keywordEnd (s : List Char) (p : Nat) : Nat :=
  if litCI "per year".data (s.drop p) then p + 8
  else if litCI "annually".data (s.drop p) then p + 8
  else if litCI "per annum".data (s.drop p) then p + 9
  else if litCI "per month".data (s.drop p) then p + 9
  else p

/-- Raw data of one salary match: the two symbol groups, the amount group
and the total match length. -/
structure SalaryRaw where
  cs1 : Char
  cs2 : Option Char
  amount : List Char
  len : Nat
deriving DecidableEq

/-- Salary pattern attempt at the start of the suffix. -/
def salaryTryAt (s : List Char) : Option SalaryRaw :=
  match s[0]? with
  | none => none
  | some c0 =>
    if isCurrency c0 then
      let ds : Nat :=
        if (((s[1]?).map isSpaceJS).getD false) && digitAt s 2 then 2 else 1
      if digitAt s ds then
        match amtLoop s ds (runFrom Char.isDigit s ds) with
        | none => none
        | some e =>
          let sTk := min 3 (runFrom (fun c => c = ' ') s e)
          let p1 := e + sTk
          let cs2 : Option Char := (s[p1]?).filter isCurrency
          let p2 := if cs2.isSome then p1 + 1 else p1
          let p3 := if (((s[p2]?).map isSpaceJS).getD false) then p2 + 1 else p2
          let p4 := if (((s[p3]?).map isSpaceJS).getD false) then p3 + 1 else p3
          some { cs1 := c0, cs2 := cs2, amount := (s.drop ds).take (e - ds),
                 len := keywordEnd s p4 }
      else none
    else none

/-- Scan for a salary match from position `pos` onwards; returns the raw
match and its exclusive end position. -/
def salaryScan (s : List Char) : Nat → Nat → Option (SalaryRaw × Nat)
  | 0, _ => none
  | fuel + 1, pos =>
    match salaryTryAt (s.drop pos) with
    | some raw => some (raw, pos + raw.len)
    | none => salaryScan s fuel (pos + 1)

/-- `salaryRegex.exec(text)` with the sticky `lastIndex` semantics of a
`g`-flagged regex: start scanning at `lastIndex`; on a match set
`lastIndex` to the match end; on failure (or `lastIndex` beyond the end)
reset `lastIndex` to 0 and return no match. -/
def salaryRegexExec (s : List Char) (lastIndex : Nat) : Option SalaryRaw × Nat :=
  if lastIndex > s.length then (none, 0)
  else
    match salaryScan s (s.length + 1 - lastIndex) lastIndex with
    | some (raw, e) => (some raw, e)
    | none => (none, 0)

/-- Decimal number value as `parseFloat` sees the (comma-free) amount:
integer part plus fractional digits scaled by the matching power of ten,
built with `mkRat` so the value is kernel-computable. -/
def parseDecimal (cs : List Char) : Rat :=
  let ip := cs.takeWhile Char.isDigit
  let rest := cs.dropWhile Char.isDigit
  let ipVal : Nat := ip.foldl (fun a c => a * 10 + (c.toNat - 48)) 0
  match rest with
  | '.' :: ds =>
    let fs := ds.takeWhile Char.isDigit
    let fVal : Nat := fs.foldl (fun a c => a * 10 + (c.toNat - 48)) 0
    mkRat (ipVal * 10 ^ fs.length + fVal) (10 ^ fs.length)
  | _ => mkRat ipVal 1

/-- currencyMap from src/index.js. -/
def currencyMap (c : Char) : Option String :=
  if c = '$' then some "USD"
  else if c = '€' then some "EUR"
  else if c = '£' then some "GBP"
  else none

/-- The desiredSalary value. -/
structure Salary where
  amount : Rat
  currency : String
deriving DecidableEq

/-- extractSalary from src/index.js.  Because `salaryRegex` carries the
`g` flag and is consulted through `exec`, the function reads and writes
the regex's `lastIndex`; it is passed in and returned explicitly. -/
def extractSalary (text : String) (lastIndex : Nat) : Option Salary × Nat :=
  match salaryRegexExec text.data lastIndex with
  | (some raw, li) =>
    if raw.amount.isEmpty then (none, li)
    else
      let amountStr := raw.amount.filter (fun c => c ≠ ',')
      let sym := raw.cs1
      (some { amount := parseDecimal amountStr,
              currency := (currencyMap sym).getD "USD" }, li)
  | (none, li) => (none, li)

/-! ### Languages: whole-word case-insensitive reference-list scan -/

/-- Word-char-ness of an optional character (out of range counts as
non-word, as at the ends of the subject string). -/
def isWordB (c : Option Char) : Bool :=
  match c with
  | some c => isWordChar c
  | none => false

/-- One position of the test `new RegExp("\\b" + name + "\\b", "i")`:
the (trimmed) name occurs literally (case-insensitively) at `i` with a
word boundary on each side. -/
def wholeWordAt (name text : List Char) (i : Nat) : Bool :=
  litCI name (text.drop i) &&
  (isWordB (if i = 0 then none else text[i - 1]?) != isWordB text[i]?) &&
  (isWordB text[i + name.length - 1]? != isWordB text[i + name.length]?)

/-- `regex.test(text)` of the whole-word pattern. -/
def wholeWordTest (name text : List Char) : Bool :=
  (List.range (text.length + 1)).any (wholeWordAt name text)

/-- extractLanguages from src/index.js, with the languages.json dataset
injected (an entry is identified by its name, the only field the code
consults). -/
def extractLanguages (langs : List String) (text : String) : Option (List String) :=
  let foundLanguages := langs.filter (fun language => wholeWordTest (trimJS language.data) text.data)
  if foundLanguages.length > 0 then some foundLanguages else none

/-! ### Country: place entities intersected with the ISO 3166-1 list -/

/-- extractCountry from src/index.js, with the iso-31661 dataset (names)
and the recognized place entities injected. -/
def extractCountry (isoNames : List String) (places : List String) : Option String :=
  let locations :=
    (places.map (fun l => (splitOnChar ',' l.data).map (fun p => (trimJS p).asString))).flatten
  let countries := isoNames.filter (fun country => locations.contains country)
  countries.head?

/-! ### Full name: first person entity split on spaces -/

/-- JavaScript truthiness of an optional string (absent or empty are
falsy). -/
def strTruthy (o : Option String) : Bool :=
  match o with
  | some s => s ≠ ""
  | none => false

/-- extractFullName from src/index.js, with the recognized person
entities injected.  When the entity list is empty, `people?.[0]` is
`undefined` and `undefined.split(' ')` throws a TypeError — modelled as
the `Except.error` case. -/
def extractFullName (people : List String) :
    Except String (Option String × Option String) :=
  match people.head? with
  | none => .error "Cannot read properties of undefined (reading 'split')"
  | some fullName =>
    let parts := (splitOnChar ' ' fullName.data).map List.asString
    let firstName := parts.head?
    let lastName0 := parts[1]?
    let secondIsSingleToken : Bool :=
      match people[1]? with
      | some q => (splitOnChar ' ' q.data).length = 1
      | none => false
    let lastName :=
      if strTruthy lastName0 = false && secondIsSingleToken then people[1]?
      else lastName0
    .ok (firstName, lastName)

/-! ### Pipeline: the Lambda handler -/

/-- The `uploadCv` member of the event. -/
structure UploadCv where
  body : String
  format : Option String
deriving DecidableEq

/-- Headers object; only the key the handler reads is modelled.  An absent
headers object is `none`; a present object without the key has
`contentType = none`. -/
structure Headers where
  contentType : Option String
deriving DecidableEq

/-- The Lambda event.  `uploadCv = none` models an event without the
`uploadCv` member. -/
structure Event where
  uploadCv : Option UploadCv
  headers : Option Headers
deriving DecidableEq

/-- The extracted record the handler assembles (field for field as in
src/index.js). -/
structure Record where
  firstName : Option String
  lastName : Option String
  fullName : Option String
  email : Option String
  phoneNumber : Option String
  linkedIn : Option String
  country : Option String
  languages : Option (List String)
  whatsApp : Option String
  telegram : Option String
  desiredSalary : Option Salary
deriving DecidableEq

/-- The response envelope: statusCode plus the optional data, message and
error members actually set by the handler. -/
structure Response where
  statusCode : Nat
  data : Option Record
  message : Option String
  error : Option String
deriving DecidableEq

/-- Injected external capabilities, at exactly the interface src/index.js
uses them: base64 decoding (`Buffer.from(body, 'base64')`, which never
throws), the two format decoders, the `compromise` entity recognizers and
the two reference datasets. -/
structure Caps where
  base64 : String → List Nat
  pdfParse : List Nat → Except String String
  docxParse : List Nat → Except String String
  people : String → List String
  places : String → List String
  iso31661 : List String
  languagesJson : List String

/-- The mutable state of the source module: the filesystem (as the set of
paths that exist) and `salaryRegex.lastIndex`. -/
structure World where
  fs : List String
  salaryLastIndex : Nat
deriving DecidableEq

/-- extractFromPDF from src/index.js: delegate to pdf-parse, wrapping a
failure message. -/
def extractFromPDF (caps : Caps) (fileContent : List Nat) : Except String String :=
  match caps.pdfParse fileContent with
  | .ok data => .ok data
  | .error e => .error ("Failed to parse PDF: " ++ e)

/-- The temp path the source hardcodes. -/
def tempFilePath : String := "/tmp/resume.docx"

/-- extractFromDocx from src/index.js: write the bytes to the fixed temp
path, parse, and — only on the success path — unlink the temp file; the
error path rejects without deleting it. -/
def extractFromDocx (caps : Caps) (w : World) (fileContent : List Nat) :
    Except String String × World :=
  let fs1 := if tempFilePath ∈ w.fs then w.fs else tempFilePath :: w.fs
  match caps.docxParse fileContent with
  | .error e => (.error ("Failed to parse DOCX: " ++ e), { w with fs := fs1 })
  | .ok data => (.ok data, { w with fs := fs1.erase tempFilePath })

/-- Resolution of `format ?? event.headers['Content-Type']`: an absent
`format` with an absent headers object throws a TypeError (before the
try/catch). -/
def resolveFileType (event : Event) (cv : UploadCv) : Except String (Option String) :=
  match cv.format with
  | some f => .ok (some f)
  | none =>
    match event.headers with
    | none => .error "Cannot read properties of undefined (reading 'Content-Type')"
    | some h => .ok h.contentType

/-- The DOCX OOXML MIME string the handler compares against. -/
def docxMime : String :=
  "application/vnd.openxmlformats-officedocument.wordprocessingml.document"

/-- The 500 envelope built in the catch block. -/
def err500 (e : String) : Response :=
  { statusCode := 500, data := none, message := some "Error parsing resume",
    error := some e }

/-- The extraction phase of the try block: run extractFullName (whose
TypeError the catch block turns into a 500) and the remaining extractors,
assemble the record, return the 200 envelope.  Only the salary extractor
touches state (the regex's `lastIndex`). -/
def runExtractors (caps : Caps) (w : World) (extractedText : String) :
    Except String Response × World :=
  match extractFullName (caps.people extractedText) with
  | .error e => (.ok (err500 e), w)
  | .ok (firstName, lastName) =>
    let (desiredSalary, li) := extractSalary extractedText w.salaryLastIndex
    let record : Record :=
      { firstName := firstName
        lastName := lastName
        fullName :=
          match firstName, lastName with
          | some f, some l => if f ≠ "" ∧ l ≠ "" then some (f ++ " " ++ l) else none
          | _, _ => none
        email := extractEmail extractedText
        phoneNumber := extractPhoneNumber extractedText
        linkedIn := extractLinkedIn extractedText
        country := extractCountry caps.iso31661 (caps.places extractedText)
        languages := extractLanguages caps.languagesJson extractedText
        whatsApp := extractWhatsApp extractedText
        telegram := extractTelegram extractedText
        desiredSalary := desiredSalary }
    (.ok { statusCode := 200, data := some record, message := none, error := none },
     { w with salaryLastIndex := li })

/-- The Lambda handler of src/index.js.  `Except.error` is a rejected
promise (an exception thrown outside the try/catch: the destructuring of
a missing `uploadCv`, or reading `Content-Type` off absent headers);
`Except.ok` is a returned envelope. -/
def handler (caps : Caps) (w : World) (event : Event) :
    Except String Response × World :=
  match event.uploadCv with
  | none => (.error "Cannot destructure property 'uploadCv' of 'event' as it is undefined", w)
  | some cv =>
    let fileContent := caps.base64 cv.body
    match resolveFileType event cv with
    | .error e => (.error e, w)
    | .ok fileType =>
      if fileType = some "application/pdf" then
        match extractFromPDF caps fileContent with
        | .error e => (.ok (err500 e), w)
        | .ok extractedText => runExtractors caps w extractedText
      else if fileType = some docxMime then
        match extractFromDocx caps w fileContent with
        | (.error e, w1) => (.ok (err500 e), w1)
        | (.ok extractedText, w1) => runExtractors caps w1 extractedText
      else
        (.ok { statusCode := 400, data := none, message := some "Unsupported file type",
               error := none }, w)

/-! ### Helper lemmas and concrete test fixtures -/

deriving instance DecidableEq for Except

/-- Head of a filtered list is the first element satisfying the
predicate. -/
theorem head?_filter_eq_find? {α : Type} (p : α → Bool) (l : List α) :
    (l.filter p).head? = l.find? p := by
  induction l with
  | nil => rfl
  | cons a t ih =>
    simp only [List.filter_cons, List.find?_cons]
    by_cases h : p a = true
    · simp [h]
    · simp [h, ih]

/-- Text containing a currency symbol somewhere. -/
def hasCurrencySymbol (t : String) : Bool := t.data.any isCurrency

/-- The salary pattern cannot start without a currency symbol. -/
theorem salaryTryAt_eq_none (s : List Char) (h : ∀ c ∈ s, isCurrency c = false) :
    salaryTryAt s = none := by
  cases s with
  | nil => rfl
  | cons c cs =>
    have hc : isCurrency c = false := h c (List.mem_cons_self c cs)
    simp [salaryTryAt, hc]

/-- A symbol-free text has no salary match at any position. -/
theorem salaryScan_eq_none (s : List Char) (h : ∀ c ∈ s, isCurrency c = false) :
    ∀ fuel pos, salaryScan s fuel pos = none := by
  intro fuel
  induction fuel with
  | zero => intro pos; rfl
  | succ f ih =>
    intro pos
    have ht : salaryTryAt (s.drop pos) = none :=
      salaryTryAt_eq_none _ (fun c hc => h c (List.mem_of_mem_drop hc))
    simp [salaryScan, ht, ih]

/-- A baseline fixture for the injected capabilities. -/
def pipeCaps : Caps :=
  { base64 := fun _ => []
    pdfParse := fun _ => .ok "$100 "
    docxParse := fun _ => .error "bad zip"
    people := fun _ => ["John Doe"]
    places := fun _ => []
    iso31661 := []
    languagesJson := [] }

/-- A PDF upload event. -/
def pdfEvent : Event :=
  { uploadCv := some { body := "JVBERi0=", format := some "application/pdf" }
    headers := none }

/-- A DOCX upload event. -/
def docxEvent : Event :=
  { uploadCv := some { body := "UEsDBA==", format := some docxMime }
    headers := none }

/-- Fresh module state: empty filesystem, `lastIndex` zero. -/
def world0 : World := { fs := [], salaryLastIndex := 0 }

/-- Capabilities whose person recognizer finds no entities. -/
def noPersonCaps : Caps := { pipeCaps with people := fun _ => [] }

/-- Capabilities whose DOCX decode succeeds. -/
def docxOkCaps : Caps := { pipeCaps with docxParse := fun _ => .ok "decoded text" }

/-! ### The claims -/

/-- C1: the claim says that on a text with zero person entities the name
extractor returns (null, null) without throwing and the pipeline still
returns a 200 envelope.  The code disagrees: `people?.[0]` is `undefined`
on an empty entity list, `undefined.split(' ')` throws a TypeError, and
the handler's catch block turns the whole request into a 500 "Error
parsing resume" envelope — no 200, no other fields.  (The spec's own
design notes flag this as a bug in the reference code.)  This theorem
evaluates the code at the failing input: decode succeeds, the entity list
is empty, and the pipeline answers 500, not 200. -/
theorem C1_empty_entity_list_throws :
    extractFullName [] = .error "Cannot read properties of undefined (reading 'split')" ∧
    (handler noPersonCaps world0 pdfEvent).1 =
      .ok (err500 "Cannot read properties of undefined (reading 'split')") ∧
    (err500 "Cannot read properties of undefined (reading 'split')").statusCode = 500 := by
  refine ⟨rfl, ?_, rfl⟩
  decide

/-- C2: the claim says the pipeline is idempotent and no extractor retains
state across calls.  The code disagrees: `salaryRegex` carries the `g`
flag and `extractSalary` consults it through `exec`, so the regex's
`lastIndex` persists between invocations.  On the decoded text `"$100 "`
the first pipeline run extracts the salary and leaves `lastIndex = 5`;
the second run on the identical input scans from position 5, finds no
match, and reports no salary — a different ExtractedRecord. -/
theorem C2_pipeline_not_idempotent :
    extractSalary "$100 " 0 = (some { amount := 100, currency := "USD" }, 5) ∧
    extractSalary "$100 " 5 = (none, 0) ∧
    (handler pipeCaps world0 pdfEvent).2.salaryLastIndex = 5 ∧
    (handler pipeCaps world0 pdfEvent).1 ≠
      (handler pipeCaps ((handler pipeCaps world0 pdfEvent).2) pdfEvent).1 := by
  refine ⟨by decide, by decide, by decide, by decide⟩

/-- C3: the claim says the transient DOCX file is removed after decode on
both the success and the failure path.  The code disagrees: in
`extractFromDocx` the `fs.unlinkSync(tempFilePath)` call sits on the
success branch of the parse callback only; when `docxParser.parseDocx`
reports an error the promise rejects without deleting the file, so
`/tmp/resume.docx` is left on disk.  The success path does delete it. -/
theorem C3_temp_file_left_on_failure :
    (extractFromDocx pipeCaps world0 [0]).1 = .error "Failed to parse DOCX: bad zip" ∧
    tempFilePath ∈ ((extractFromDocx pipeCaps world0 [0]).2).fs ∧
    (extractFromDocx docxOkCaps world0 [0]).1 = .ok "decoded text" ∧
    tempFilePath ∉ ((extractFromDocx docxOkCaps world0 [0]).2).fs := by
  refine ⟨rfl, by decide, rfl, by decide⟩

/-- C6 counterexample: the claim says input `"£1200.50"` yields
`{amount: 1200.5, currency: "GBP"}`.  It does not: the group `( {1,3})`
after the amount is mandatory, `"£1200.50"` ends right after the decimal
digits with no space anywhere, so `salaryRegex` has no match and
`extractSalary` returns null. -/
theorem C6_counterexample_no_trailing_space :
    extractSalary "£1200.50" 0 = (none, 0) := by decide

/-- C6 as amended: the salary extractor matches a currency symbol,
optional space, a comma-groupable amount with optional 1–2 decimal
digits, a MANDATORY run of 1–3 spaces, optional second symbol and
optional period keyword.  `"$50,000  per year"` yields
`{amount: 50000, currency: "USD"}`; `"£1200.50"` (no character after the
amount) yields null, while `"£1200.50 "` with a trailing space yields
`{amount: 1200.5, currency: "GBP"}`; and any input containing no currency
symbol yields null. -/
theorem C6_salary_extractor_behaviour :
    extractSalary "$50,000  per year" 0 =
      (some { amount := 50000, currency := "USD" }, 17) ∧
    extractSalary "£1200.50" 0 = (none, 0) ∧
    extractSalary "£1200.50 " 0 =
      (some { amount := mkRat 120050 100, currency := "GBP" }, 9) ∧
    ∀ (t : String) (li : Nat), hasCurrencySymbol t = false →
      extractSalary t li = (none, 0) := by
  refine ⟨by decide, by decide, by decide, ?_⟩
  intro t li h
  have hall : ∀ c ∈ t.data, isCurrency c = false := by
    intro c hc
    have := List.any_eq_false.mp h c hc
    simpa using this
  by_cases hli : t.length < li
  · simp [extractSalary, salaryRegexExec, hli]
  · simp [extractSalary, salaryRegexExec, hli, salaryScan_eq_none t.data hall]

/-- C6 witness: the no-currency-symbol branch of the amended claim at a
concrete input. -/
theorem C6_salary_extractor_behaviour_witness :
    extractSalary "around fifty thousand" 3 = (none, 0) :=
  C6_salary_extractor_behaviour.2.2.2 "around fifty thousand" 3 (by decide)

/-- C4: a request whose resolved declared content type is neither
`application/pdf` nor the DOCX OOXML MIME string gets the terminal
`{statusCode: 400, message: "Unsupported file type"}` envelope.  The
conclusion holds for every choice of capabilities and leaves the world
untouched, so neither decoder is invoked (the decoders are the only
capabilities that could contribute to the result or the state on this
path). -/
theorem C4_unsupported_type_400_no_decode
    (caps : Caps) (w : World) (event : Event) (cv : UploadCv) (ft : Option String)
    (h1 : event.uploadCv = some cv)
    (h2 : resolveFileType event cv = .ok ft)
    (h3 : ft ≠ some "application/pdf")
    (h4 : ft ≠ some docxMime) :
    handler caps w event =
      (.ok { statusCode := 400, data := none, message := some "Unsupported file type",
             error := none }, w) := by
  simp only [handler, h1, h2]
  rw [if_neg h3, if_neg h4]

/-- C4 witness: a concrete `text/plain` upload is answered 400 with the
world unchanged. -/
theorem C4_unsupported_type_400_no_decode_witness :
    handler pipeCaps world0
        { uploadCv := some { body := "aGk=", format := some "text/plain" }, headers := none } =
      (.ok { statusCode := 400, data := none, message := some "Unsupported file type",
             error := none }, world0) :=
  C4_unsupported_type_400_no_decode pipeCaps world0 _
    { body := "aGk=", format := some "text/plain" } (some "text/plain") rfl rfl
    (by decide) (by decide)

/-- C5: when the declared type is supported but decode fails, the pipeline
returns the terminal `{statusCode: 500, message: "Error parsing resume"}`
envelope whose error field carries the decode failure description
(wrapped by extractFromPDF / extractFromDocx), with no data member — for
the PDF path and the DOCX path alike. -/
theorem C5_decode_failure_maps_to_500 :
    (∀ (caps : Caps) (w : World) (event : Event) (cv : UploadCv) (msg : String),
       event.uploadCv = some cv →
       resolveFileType event cv = .ok (some "application/pdf") →
       caps.pdfParse (caps.base64 cv.body) = .error msg →
       handler caps w event = (.ok (err500 ("Failed to parse PDF: " ++ msg)), w)) ∧
    (∀ (caps : Caps) (w : World) (event : Event) (cv : UploadCv) (msg : String),
       event.uploadCv = some cv →
       resolveFileType event cv = .ok (some docxMime) →
       caps.docxParse (caps.base64 cv.body) = .error msg →
       (handler caps w event).1 = .ok (err500 ("Failed to parse DOCX: " ++ msg))) := by
  constructor
  · intro caps w event cv msg h1 h2 h3
    simp [handler, h1, h2, extractFromPDF, h3]
  · intro caps w event cv msg h1 h2 h3
    have hne : (some docxMime : Option String) ≠ some "application/pdf" := by decide
    simp [handler, h1, h2, hne, extractFromDocx, h3]

/-- C5 witness: a concrete PDF upload whose decoder rejects the bytes. -/
theorem C5_decode_failure_maps_to_500_witness :
    handler { pipeCaps with pdfParse := fun _ => .error "boom" } world0 pdfEvent =
      (.ok (err500 "Failed to parse PDF: boom"), world0) :=
  C5_decode_failure_maps_to_500.1 { pipeCaps with pdfParse := fun _ => .error "boom" }
    world0 pdfEvent { body := "JVBERi0=", format := some "application/pdf" } "boom"
    rfl rfl rfl

/-- C7: the telegram extractor is two-stage — the first `t.me`/
`telegram.me` URL wins, and only when no URL matches is the handle
pattern consulted, whose lookbehind and lookahead keep it off email
local-parts and domains.  Concretely: a text with a URL yields the URL
even when a handle is also present, `"ping @johndoe for info"` yields
`"@johndoe"`, and `"email john@doe.com"` yields null. -/
theorem C7_telegram_two_stage :
    (∀ t : String,
       extractTelegram t = (telegramUrlFirst t).orElse (fun _ => telegramHandleFirst t)) ∧
    extractTelegram "contact t.me/johndoe" = some "t.me/johndoe" ∧
    extractTelegram "join t.me/grp or ping @me" = some "t.me/grp" ∧
    extractTelegram "ping @johndoe for info" = some "@johndoe" ∧
    extractTelegram "email john@doe.com" = none := by
  refine ⟨?_, by decide, by decide, by decide, by decide⟩
  intro t
  unfold extractTelegram
  cases telegramUrlFirst t <;> rfl

/-- C8: the country extractor splits each recognized place entity on
commas, trims the pieces, and intersects them with the injected ISO
country-name list; the result is the first list entry (in reference-list
order, not text order) occurring among the pieces, and null when none
does.  The concrete cases show reference-list order beating text order
and the city-only null case. -/
theorem C8_country_reference_list_order :
    (∀ (isoNames places : List String),
       extractCountry isoNames places =
         isoNames.find? (fun country =>
           ((places.map (fun l => (splitOnChar ',' l.data).map
               (fun p => (trimJS p).asString))).flatten).contains country)) ∧
    (∀ (isoNames places : List String),
       (extractCountry isoNames places = none ↔
         ∀ country ∈ isoNames,
           ((places.map (fun l => (splitOnChar ',' l.data).map
               (fun p => (trimJS p).asString))).flatten).contains country = false)) ∧
    extractCountry ["France", "Germany"] ["Germany, France"] = some "France" ∧
    extractCountry ["France", "Germany"] ["Lyon"] = none := by
  refine ⟨?_, ?_, by decide, by decide⟩
  · intro isoNames places
    unfold extractCountry
    exact head?_filter_eq_find? _ _
  · intro isoNames places
    unfold extractCountry
    rw [head?_filter_eq_find?, List.find?_eq_none]
    constructor
    · intro h country hc
      simpa using h country hc
    · intro h country hc
      simpa using h country hc

/-- C10: an event without the `uploadCv` member makes the destructuring at
the top of the handler throw, and an event whose `uploadCv.format` is
absent while the event has no headers object makes the `Content-Type`
read throw; both happen before the try/catch, so the promise rejects and
no 200/400/500 envelope is produced, whatever the capabilities and
state. -/
theorem C10_malformed_event_rejects :
    (∀ (caps : Caps) (w : World) (hs : Option Headers),
       handler caps w { uploadCv := none, headers := hs } =
         (.error "Cannot destructure property 'uploadCv' of 'event' as it is undefined", w)) ∧
    (∀ (caps : Caps) (w : World) (body : String),
       handler caps w { uploadCv := some { body := body, format := none }, headers := none } =
         (.error "Cannot read properties of undefined (reading 'Content-Type')", w)) :=
  ⟨fun _ _ _ => rfl, fun _ _ _ => rfl⟩

/-- extractLanguages in closed form: null exactly when no reference entry
passes the whole-word test. -/
theorem extractLanguages_eq (langs : List String) (text : String) :
    extractLanguages langs text =
      (if (langs.filter (fun language => wholeWordTest (trimJS language.data) text.data)) = []
       then none
       else some (langs.filter (fun language => wholeWordTest (trimJS language.data) text.data))) := by
  simp only [extractLanguages]
  by_cases h : (langs.filter (fun language => wholeWordTest (trimJS language.data) text.data)) = []
  · simp [h]
  · have hl : 0 < (langs.filter (fun language => wholeWordTest (trimJS language.data) text.data)).length :=
      List.length_pos.mpr h
    simp [h, hl]

/-- C9: the languages extractor tests every entry of the injected
reference list for a whole-word, case-insensitive occurrence in the text
and returns the matching entries in reference-list order (a sublist of
the reference list), non-empty, or null when none match; `"Spanishy"`
does not count as an occurrence of `"Spanish"`. -/
theorem C9_languages_whole_word :
    (∀ (langs : List String) (text : String),
       (extractLanguages langs text = none ↔
         ∀ name ∈ langs, wholeWordTest (trimJS name.data) text.data = false)) ∧
    (∀ (langs : List String) (text : String) (res : List String),
       extractLanguages langs text = some res →
       res ≠ [] ∧ res.Sublist langs ∧
       ∀ name, name ∈ res ↔
         name ∈ langs ∧ wholeWordTest (trimJS name.data) text.data = true) ∧
    extractLanguages ["English", "Spanish"] "I speak Spanish daily" = some ["Spanish"] ∧
    extractLanguages ["Spanish"] "some Spanishy text" = none := by
  refine ⟨?_, ?_, by decide, by decide⟩
  · intro langs text
    rw [extractLanguages_eq]
    by_cases h : (langs.filter (fun language => wholeWordTest (trimJS language.data) text.data)) = []
    · rw [if_pos h]
      have hall := List.filter_eq_nil_iff.mp h
      simp only [eq_self_iff_true, true_iff]
      intro name hn
      simpa using hall name hn
    · rw [if_neg h]
      constructor
      · intro hc
        cases hc
      · intro hall
        exfalso
        exact h (List.filter_eq_nil_iff.mpr (fun a ha => by simp [hall a ha]))
  · intro langs text res hres
    rw [extractLanguages_eq] at hres
    by_cases h : (langs.filter (fun language => wholeWordTest (trimJS language.data) text.data)) = []
    · rw [if_pos h] at hres
      cases hres
    · rw [if_neg h] at hres
      have hr : res = langs.filter (fun language => wholeWordTest (trimJS language.data) text.data) :=
        (Option.some_inj.mp hres).symm
      subst hr
      refine ⟨h, List.filter_sublist langs, ?_⟩
      intro name
      simp [List.mem_filter]

/-- C9 witness: the membership characterization instantiated at the
concrete Spanish example. -/
theorem C9_languages_whole_word_witness :
    (["Spanish"] : List String) ≠ [] ∧
    List.Sublist ["Spanish"] ["English", "Spanish"] ∧
    ∀ name, name ∈ (["Spanish"] : List String) ↔
      name ∈ (["English", "Spanish"] : List String) ∧
      wholeWordTest (trimJS name.data) "I speak Spanish daily".data = true :=
  C9_languages_whole_word.2.1 ["English", "Spanish"] "I speak Spanish daily" ["Spanish"]
    (by decide)
